import Mathlib

/-!
Shallow embedding of the Sokoban board core of the repository
(`src/data/map.rs`, `src/data/movable.rs`, `src/data/mod.rs`).

Modelling conventions:
* Machine integers (`u32`, `usize`) are modelled as `Nat`.  `u32`
  saturating arithmetic clamps at `0` (which `Nat` subtraction gives for
  free) and at `u32::MAX = 4294967295`.
* Rust panics (`expect` on an empty map text in `get_width_height`, the
  `u32` multiplication overflow in `Map::new`) are modelled as `none` of
  an outer `Option` layer.
* Text (`&str` / `String`) is modelled as `List Char`; `str::lines`,
  `str::split` and `u32::from_str` are modelled by the executable
  functions `rustLines`, `splitOnChar` / `splitBlocks` and `parseU32`
  below, following the documented Rust semantics.
* The in-place mutations of `Board::do_move_player` are modelled by
  returning the new `Board` together with the `Option<Option<usize>>`
  outcome value.
-/

/-- Rust `u32::MAX`, the saturation bound of `saturating_add`. -/
def U32_MAX : Nat := 4294967295

/-- Rust `CellKind` from `src/data/map.rs`: the terrain type of one square. -/
inductive CellKind where
  | Void
  | Floor
  | Wall
  | Target
deriving DecidableEq

/-- Rust `CellKind::is_crossable`: `!matches!(self, Void | Wall)`. -/
def CellKind.is_crossable : CellKind → Bool
  | .Void => false
  | .Wall => false
  | .Floor => true
  | .Target => true

/-- Rust `Map` from `src/data/map.rs`: `width`, `height` and the row-major
`squares` vector. -/
structure Map where
  width : Nat
  height : Nat
  squares : List CellKind
deriving DecidableEq

/-- Rust `Map::new(width, height)`: allocates `width * height` squares, all
`Void`.  The source computes `width * height` in `u32`; on overflow the
Rust program panics (debug overflow check; the subsequent
`usize::try_from` of a `u32` never fails on the 64-bit targets the crate
builds for), which we model as `none`. -/
def Map.new (width height : Nat) : Option Map :=
  if width * height < 2 ^ 32 then
    some { width := width, height := height,
           squares := List.replicate (width * height) CellKind.Void }
  else
    none

/-- Rust `Map::try_get(i, j)`: `Some(squares[j * width + i])` when `i < width`
and `j < height`, else `None`.  For every map built by `Map::new` /
parsing, `squares.length = width * height`, so the checked index is in
range; `getD` supplies an (unreachable) default so the model is total. -/
def Map.try_get (m : Map) (i j : Nat) : Option CellKind :=
  if i < m.width ∧ j < m.height then
    some (m.squares.getD (j * m.width + i) CellKind.Void)
  else
    none

/-- Rust `Map::get(i, j)`: `try_get(i, j).unwrap_or(Void)`. -/
def Map.get (m : Map) (i j : Nat) : CellKind :=
  (m.try_get i j).getD CellKind.Void

/-- Well-formedness of a `Map` value: the invariant of the Rust struct
(whose fields are private and only written by `Map::new` and the parser):
the square vector has exactly `width * height` entries. -/
def Map.Wf (m : Map) : Prop :=
  m.squares.length = m.width * m.height

/-- Rust `Direction` from `src/data/movable.rs`. -/
inductive Direction where
  | Left
  | Right
  | Up
  | Down
deriving DecidableEq

/-- Rust `Direction::to_coords(i, j)`: one step in the direction, with `u32`
saturating arithmetic (`saturating_sub` clamps at `0`, which is exactly
`Nat` subtraction; `saturating_add` clamps at `u32::MAX`). -/
def Direction.to_coords (d : Direction) (i j : Nat) : Nat × Nat :=
  match d with
  | .Left => (i - 1, j)
  | .Right => (min (i + 1) U32_MAX, j)
  | .Up => (i, j - 1)
  | .Down => (i, min (j + 1) U32_MAX)

/-- Rust `Crate` from `src/data/movable.rs`: a movable crate at column `i`,
row `j`. -/
structure Crate where
  i : Nat
  j : Nat
deriving DecidableEq

/-- Rust `Crate::pos()`. -/
def Crate.pos (c : Crate) : Nat × Nat :=
  (c.i, c.j)

/-- Rust `Board` from `src/data/mod.rs`. -/
structure Board where
  map : Map
  player : Nat × Nat
  crates : List Crate
  original_player : Nat × Nat
  original_crates : List Crate
deriving DecidableEq

/-- Rust `self.crates.iter().enumerate().find(|(_, c)| c.pos() == p).map(|(i, _)| i)`:
index of the first crate at position `p`. -/
def findCrateIdx (p : Nat × Nat) : List Crate → Option Nat
  | [] => none
  | c :: rest =>
    if c.pos = p then some 0 else (findCrateIdx p rest).map (· + 1)

/-- Rust `self.crates.iter().find(|c| c.pos() == p)`: the first crate at
position `p`. -/
def findCrateAt (p : Nat × Nat) : List Crate → Option Crate
  | [] => none
  | c :: rest =>
    if c.pos = p then some c else findCrateAt p rest

/-- Rust `Board::do_move_player(dir)` from `src/data/mod.rs`, lines 105-141.
The mutation is modelled by returning the updated board next to the
returned `Option<Option<usize>>`:
`some (some k)` = player moved and pushed crate `k`,
`some none` = player moved alone, `none` = blocked.
Note the source moves the crate (`self.crates[index].do_move(..)`)
*before* the final `!under.is_crossable() || is_crate_blocking` test. -/
def Board.do_move_player (b : Board) (dir : Direction) : Board × Option (Option Nat) :=
  let new_player := dir.to_coords b.player.1 b.player.2
  let under := b.map.get new_player.1 new_player.2
  match findCrateIdx new_player b.crates with
  | some index =>
    let new_crate := dir.to_coords new_player.1 new_player.2
    if (b.map.get new_crate.1 new_crate.2).is_crossable = true
        ∧ findCrateAt new_crate b.crates = none then
      let b1 := { b with crates := b.crates.set index ⟨new_crate.1, new_crate.2⟩ }
      if under.is_crossable = true then
        ({ b1 with player := new_player }, some (some index))
      else
        (b1, none)
    else
      (b, none)
  | none =>
    if under.is_crossable = true then
      ({ b with player := new_player }, some none)
    else
      (b, none)

/-- Rust `Crate::is_placed(board)`: `matches!(board.map().get(i, j), Target)`. -/
def Crate.is_placed (c : Crate) (b : Board) : Bool :=
  match b.map.get c.i c.j with
  | .Target => true
  | _ => false

/-- Rust `Board::has_won()`: `crates.iter().all(|c| c.is_placed(self))`. -/
def Board.has_won (b : Board) : Bool :=
  b.crates.all (fun c => c.is_placed b)

/-- Rust `Board::reset()`: restore player and crates from the saved originals. -/
def Board.reset (b : Board) : Board :=
  { b with player := b.original_player, crates := b.original_crates }

/-- The three Board invariants stated by the spec: no two crates share a
cell, no crate occupies the player's cell, and player and every crate sit
on a crossable cell. -/
def invariants (b : Board) : Prop :=
  (∀ s t : Fin b.crates.length, s ≠ t → (b.crates.get s).pos ≠ (b.crates.get t).pos)
  ∧ (∀ s : Fin b.crates.length, (b.crates.get s).pos ≠ b.player)
  ∧ (b.map.get b.player.1 b.player.2).is_crossable = true
  ∧ (∀ s : Fin b.crates.length,
      (b.map.get (b.crates.get s).i (b.crates.get s).j).is_crossable = true)

instance (b : Board) : Decidable (invariants b) := by
  unfold invariants
  infer_instance

/-- A public mutating operation on a `Board`. -/
inductive Op where
  | move (dir : Direction)
  | reset

/-- Run one operation. -/
def applyOp (b : Board) : Op → Board
  | .move dir => (b.do_move_player dir).1
  | .reset => b.reset

/-- Run a sequence of operations. -/
def runOps (b : Board) (ops : List Op) : Board :=
  ops.foldl applyOp b

/-- The movement algorithm exactly as claim C2 describes it, with its
condition "no other crate occupies `new_crate`" amended to "no crate at
all occupies `new_crate`" (the pushed crate itself blocks the push when
saturation makes `new_crate` coincide with `new_player`). -/
def MoveSpec (b : Board) (dir : Direction) : Prop :=
  (∀ k : Fin b.crates.length,
      (b.crates.get k).pos = dir.to_coords b.player.1 b.player.2 →
    ((((b.map.get (dir.to_coords (dir.to_coords b.player.1 b.player.2).1
            (dir.to_coords b.player.1 b.player.2).2).1
          (dir.to_coords (dir.to_coords b.player.1 b.player.2).1
            (dir.to_coords b.player.1 b.player.2).2).2).is_crossable = true)
       ∧ (∀ c ∈ b.crates,
            c.pos ≠ dir.to_coords (dir.to_coords b.player.1 b.player.2).1
              (dir.to_coords b.player.1 b.player.2).2)) →
        b.do_move_player dir
          = ({ b with
                player := dir.to_coords b.player.1 b.player.2,
                crates := b.crates.set k.1
                  ⟨(dir.to_coords (dir.to_coords b.player.1 b.player.2).1
                      (dir.to_coords b.player.1 b.player.2).2).1,
                   (dir.to_coords (dir.to_coords b.player.1 b.player.2).1
                      (dir.to_coords b.player.1 b.player.2).2).2⟩ },
             some (some k.1)))
    ∧ (¬ (((b.map.get (dir.to_coords (dir.to_coords b.player.1 b.player.2).1
              (dir.to_coords b.player.1 b.player.2).2).1
            (dir.to_coords (dir.to_coords b.player.1 b.player.2).1
              (dir.to_coords b.player.1 b.player.2).2).2).is_crossable = true)
         ∧ (∀ c ∈ b.crates,
              c.pos ≠ dir.to_coords (dir.to_coords b.player.1 b.player.2).1
                (dir.to_coords b.player.1 b.player.2).2)) →
        b.do_move_player dir = (b, none)))
  ∧ ((∀ c ∈ b.crates, c.pos ≠ dir.to_coords b.player.1 b.player.2) →
      (((b.map.get (dir.to_coords b.player.1 b.player.2).1
           (dir.to_coords b.player.1 b.player.2).2).is_crossable = true →
         b.do_move_player dir
           = ({ b with player := dir.to_coords b.player.1 b.player.2 }, some none))
       ∧ ((b.map.get (dir.to_coords b.player.1 b.player.2).1
            (dir.to_coords b.player.1 b.player.2).2).is_crossable = false →
         b.do_move_player dir = (b, none))))

instance {ε α : Type} [DecidableEq ε] [DecidableEq α] : DecidableEq (Except ε α) :=
  fun x y =>
    match x, y with
    | .ok a, .ok b =>
      if h : a = b then .isTrue (by rw [h]) else .isFalse (by intro hc; cases hc; exact h rfl)
    | .error a, .error b =>
      if h : a = b then .isTrue (by rw [h]) else .isFalse (by intro hc; cases hc; exact h rfl)
    | .ok _, .error _ => .isFalse (by intro hc; cases hc)
    | .error _, .ok _ => .isFalse (by intro hc; cases hc)

/-! ### Text model: `str::split`, `str::lines`, `u32::from_str` -/

/-- Rust `str::split(sep)` for a one-character separator: always returns at
least one (possibly empty) part. -/
def splitOnChar (sep : Char) : List Char → List (List Char)
  | [] => [[]]
  | c :: rest =>
    if c = sep then
      [] :: splitOnChar sep rest
    else
      match splitOnChar sep rest with
      | [] => [[c]]
      | part :: parts => (c :: part) :: parts

/-- Rust `src.split("\n\n")`: split on the two-character separator,
left-to-right and non-overlapping, as Rust `str::split` does. -/
def splitBlocks : List Char → List (List Char)
  | [] => [[]]
  | '\n' :: '\n' :: rest => [] :: splitBlocks rest
  | c :: rest =>
    match splitBlocks rest with
    | [] => [[c]]
    | part :: parts => (c :: part) :: parts

/-- Strip one trailing carriage return from a line. -/
def stripCR (l : List Char) : List Char :=
  if l.getLast? = some '\r' then l.dropLast else l

/-- Rust `str::lines()`: lines are split at `'\n'` or `"\r\n"`; a line
terminated by `'\n'` also loses one trailing `'\r'` (the `"\r\n"` case),
while a final line not terminated by `'\n'` is kept verbatim, a lone
trailing `'\r'` included (std example: `"foo\r\nbar\n\nbaz\r"` yields
`["foo", "bar", "", "baz\r"]`).  After splitting on `'\n'`, every piece
except the last was terminated; the text ends with `'\n'` exactly when
the last piece is empty, in which case it is not a line. -/
def rustLines (cs : List Char) : List (List Char) :=
  let parts := splitOnChar '\n' cs
  if parts.getLast? = some [] then
    parts.dropLast.map stripCR
  else
    parts.dropLast.map stripCR ++ [parts.getLastD []]

/-- Rust `Iterator::max` over line lengths (`none` on an empty list, where the
source `expect`s, i.e. panics). -/
def maxList : List Nat → Option Nat
  | [] => none
  | a :: rest =>
    match maxList rest with
    | none => some a
    | some m => some (max a m)

/-- Rust `u32::from_str`: an optional leading `'+'`, then one or more ASCII
digits, and the value must fit in `u32`. -/
def parseU32 (cs : List Char) : Option Nat :=
  let ds := match cs with
    | '+' :: rest => rest
    | _ => cs
  if ds.isEmpty then
    none
  else if ds.all Char.isDigit then
    let v := ds.foldl (fun acc c => 10 * acc + (c.toNat - 48)) 0
    if v < 2 ^ 32 then some v else none
  else
    none

/-! ### Map parsing (`impl TryFrom<&str> for Map`, `get_width_height`) -/

/-- Rust `impl TryFrom<char> for CellKind`. -/
def cellOfChar (c : Char) : Except (String × Char) CellKind :=
  if c = ' ' then .ok .Void
  else if c = '.' then .ok .Floor
  else if c = '#' then .ok .Wall
  else if c = 'X' then .ok .Target
  else .error ("Unknown symbol", c)

/-- Whether a character is one of the four legal map symbols. -/
def isCellChar (c : Char) : Bool :=
  match cellOfChar c with
  | .ok _ => true
  | .error _ => false

/-- Total version of `cellOfChar`, used only on legal symbols. -/
def cellOfCharD (c : Char) : CellKind :=
  match cellOfChar c with
  | .ok k => k
  | .error _ => .Void

/-- Translate the characters of one line, stopping at the first unknown
symbol (the inner loop of `Map::try_from`). -/
def parseLine : List Char → Except (String × Char) (List CellKind)
  | [] => .ok []
  | c :: cs =>
    match cellOfChar c with
    | .error e => .error e
    | .ok k =>
      match parseLine cs with
      | .error e => .error e
      | .ok ks => .ok (k :: ks)

/-- The outer loop of `Map::try_from`: the source writes the cells of
line `j` into `squares[j*width .. j*width+len)` of an all-`Void` buffer;
since every line is at most `width` long, the resulting buffer is the
concatenation of the translated lines, each right-padded with `Void` to
`width` cells, which is what this function builds. -/
def buildRows (w : Nat) : List (List Char) → Except (String × Char) (List CellKind)
  | [] => .ok []
  | l :: ls =>
    match parseLine l with
    | .error e => .error e
    | .ok row =>
      match buildRows w ls with
      | .error e => .error e
      | .ok rest => .ok ((row ++ List.replicate (w - l.length) CellKind.Void) ++ rest)

/-- The cell buffer that a successful `Map::try_from` produces: each
line translated cell-by-cell and right-padded with `Void` to `w` cells,
rows concatenated in order (row-major layout). -/
def rowsConcat (w : Nat) : List (List Char) → List CellKind
  | [] => []
  | l :: ls =>
    (l.map cellOfCharD ++ List.replicate (w - l.length) CellKind.Void) ++ rowsConcat w ls

/-- Rust `get_width_height`: height is the number of lines, width the length
of the longest line; `none` models the `expect` panic on an empty text. -/
def get_width_height (cs : List Char) : Option (Nat × Nat) :=
  match maxList ((rustLines cs).map List.length) with
  | none => none
  | some w => some (w, (rustLines cs).length)

/-- Rust `impl TryFrom<&str> for Map`.  The outer `Option` models the two
panic sources (`get_width_height` on an empty text, `Map::new` on `u32`
overflow). -/
def Map.tryFromChars (cs : List Char) : Option (Except (String × Char) Map) :=
  match get_width_height cs with
  | none => none
  | some (w, h) =>
    match Map.new w h with
    | none => none
    | some base =>
      match buildRows w (rustLines cs) with
      | .error e => some (.error e)
      | .ok squares => some (.ok { base with squares := squares })

/-! ### Level parsing (`impl FromStr for Board`) -/

/-- Rust `LevelParseError` from `src/data/mod.rs` (string payloads are kept as
`List Char`, our model of Rust strings). -/
inductive LevelParseError where
  | MissingMap
  | MissingPlayerCoordinates
  | MissingCratesCoordinates
  | CantParseMap (e : String × Char)
  | CantParsePlayerCoordinates (raw : List Char)
  | CantParseCrateCoordinates (raw : List Char)
deriving DecidableEq

/-- One coordinate line: `line.split(',')`, parse the first two fields as
`u32` (fields after the second are never looked at by the source). -/
def parseCoordLine (l : List Char) : Option (Nat × Nat) :=
  match splitOnChar ',' l with
  | a :: b :: _ =>
    match parseU32 a, parseU32 b with
    | some x, some y => some (x, y)
    | _, _ => none
  | _ => none

/-- The crates loop of `Board::from_str`: parse each line, aborting with
the first offending raw line. -/
def parseCratesLines : List (List Char) → Except (List Char) (List Crate)
  | [] => .ok []
  | l :: ls =>
    match parseCoordLine l with
    | none => .error l
    | some p =>
      match parseCratesLines ls with
      | .error e => .error e
      | .ok cs => .ok (⟨p.1, p.2⟩ :: cs)

/-- First line of a crates block whose first two comma-fields do not both
parse as `u32`. -/
def firstBadLine : List (List Char) → Option (List Char)
  | [] => none
  | l :: ls => if parseCoordLine l = none then some l else firstBadLine ls

/-- Rust `src.split("\n\n").filter(|l| !l.is_empty())`. -/
def nonEmptyBlocks (src : List Char) : List (List Char) :=
  (splitBlocks src).filter (fun bl => !bl.isEmpty)

/-- Rust `impl FromStr for Board`.  The outer `Option` models the panics that
`Map::try_from` can raise (never reached from here on a non-empty block,
but the model is total). -/
def Board.fromChars (src : List Char) : Option (Except LevelParseError Board) :=
  match nonEmptyBlocks src with
  | [] => some (.error .MissingMap)
  | mapB :: rest =>
    match Map.tryFromChars mapB with
    | none => none
    | some (.error e) => some (.error (.CantParseMap e))
    | some (.ok map) =>
      match rest with
      | [] => some (.error .MissingPlayerCoordinates)
      | playerB :: rest2 =>
        match parseCoordLine playerB with
        | none => some (.error (.CantParsePlayerCoordinates playerB))
        | some player =>
          match rest2 with
          | [] => some (.error .MissingCratesCoordinates)
          | cratesB :: _ =>
            match parseCratesLines (rustLines cratesB) with
            | .error l => some (.error (.CantParseCrateCoordinates l))
            | .ok crates =>
              some (.ok { map := map, player := player, crates := crates,
                          original_player := player, original_crates := crates })

/-- Modelled from the spec: a digits-only `u32` literal, for the
spec's line format `"<u32>,<u32>"`. -/
def isU32Lit (cs : List Char) : Bool :=
  !cs.isEmpty && cs.all Char.isDigit
    && decide (cs.foldl (fun acc c => 10 * acc + (c.toNat - 48)) 0 < 2 ^ 32)

/-- Modelled from the spec: whether a line is of the exact form
`"<u32>,<u32>"` (claim C9's failure criterion). -/
def isCoordForm (l : List Char) : Bool :=
  match splitOnChar ',' l with
  | [a, b] => isU32Lit a && isU32Lit b
  | _ => false

/-! ### Concrete boards and level texts used as test inputs -/

/-- A 4x1 all-floor level whose two crates overlap at `(1,0)`. -/
def lvl1 : List Char := "....\n\n0,0\n\n1,0\n1,0".toList

/-- The board parsed from `lvl1`. -/
def b1cex : Board :=
  { map := ⟨4, 1, [.Floor, .Floor, .Floor, .Floor]⟩,
    player := (0, 0), crates := [⟨1, 0⟩, ⟨1, 0⟩],
    original_player := (0, 0), original_crates := [⟨1, 0⟩, ⟨1, 0⟩] }

/-- A 1x2 all-floor board with no crates. -/
def bW1 : Board :=
  { map := ⟨1, 2, [.Floor, .Floor]⟩,
    player := (0, 0), crates := [],
    original_player := (0, 0), original_crates := [] }

/-- A 2x1 all-floor board, player at `(1,0)`, one crate at `(0,0)`:
pushing `Left` saturates, so `new_crate = new_player = (0,0)`. -/
def b2cex : Board :=
  { map := ⟨2, 1, [.Floor, .Floor]⟩,
    player := (1, 0), crates := [⟨0, 0⟩],
    original_player := (1, 0), original_crates := [⟨0, 0⟩] }

/-- A 4x1 corridor ending on a target, with a pushable crate. -/
def bW2 : Board :=
  { map := ⟨4, 1, [.Floor, .Floor, .Floor, .Target]⟩,
    player := (1, 0), crates := [⟨2, 0⟩],
    original_player := (1, 0), original_crates := [⟨2, 0⟩] }

/-- Level text `".#."` with a crate sitting on the wall cell `(1,0)`. -/
def lvl3 : List Char := ".#.\n\n0,0\n\n1,0".toList

/-- The board parsed from `lvl3`: its crate rests on a `Wall`. -/
def b3cex : Board :=
  { map := ⟨3, 1, [.Floor, .Wall, .Floor]⟩,
    player := (0, 0), crates := [⟨1, 0⟩],
    original_player := (0, 0), original_crates := [⟨1, 0⟩] }

/-- A 2x1 board walled on the right, no crates. -/
def bW3 : Board :=
  { map := ⟨2, 1, [.Floor, .Wall]⟩,
    player := (0, 0), crates := [],
    original_player := (0, 0), original_crates := [] }

/-- A 1x1 board whose single cell is a target holding a crate. -/
def bW4 : Board :=
  { map := ⟨1, 1, [.Target]⟩,
    player := (0, 0), crates := [⟨0, 0⟩],
    original_player := (0, 0), original_crates := [⟨0, 0⟩] }

/-- A 2x1 map used to exercise `try_get` / `get`. -/
def mW5 : Map := ⟨2, 1, [.Floor, .Wall]⟩

/-- A level whose crates block consists of the single line `"1,2,3"`. -/
def lvl9 : List Char := "#\n\n0,0\n\n1,2,3".toList

/-- The board the source parses out of `lvl9` (the third field `3` is
silently ignored). -/
def b9cex : Board :=
  { map := ⟨1, 1, [.Wall]⟩,
    player := (0, 0), crates := [⟨1, 2⟩],
    original_player := (0, 0), original_crates := [⟨1, 2⟩] }

/-- A level whose crates block consists of the single line `"3,x"`. -/
def lvl9w : List Char := "#\n\n0,0\n\n3,x".toList

/-- A 1x1 floor board with the player at the origin. -/
def bW10 : Board :=
  { map := ⟨1, 1, [.Floor]⟩,
    player := (0, 0), crates := [],
    original_player := (0, 0), original_crates := [] }

/-! ### Helper lemmas -/

theorem findCrateIdx_none_iff (p : Nat × Nat) (l : List Crate) :
    findCrateIdx p l = none ↔ ∀ c ∈ l, c.pos ≠ p := by
  induction l with
  | nil => simp [findCrateIdx]
  | cons c rest ih =>
    unfold findCrateIdx
    by_cases h : c.pos = p
    · simp [h]
    · simp [h, Option.map_eq_none', ih]

theorem findCrateIdx_some (p : Nat × Nat) (l : List Crate) (k : Nat)
    (h : findCrateIdx p l = some k) :
    ∃ hk : k < l.length, (l.get ⟨k, hk⟩).pos = p := by
  induction l generalizing k with
  | nil => simp [findCrateIdx] at h
  | cons c rest ih =>
    unfold findCrateIdx at h
    by_cases hc : c.pos = p
    · rw [if_pos hc] at h
      cases h
      exact ⟨by simp, hc⟩
    · rw [if_neg hc] at h
      rw [Option.map_eq_some'] at h
      obtain ⟨m, hm, rfl⟩ := h
      obtain ⟨hlt, hpos⟩ := ih m hm
      exact ⟨Nat.succ_lt_succ hlt, hpos⟩

theorem findCrateAt_none_iff (p : Nat × Nat) (l : List Crate) :
    findCrateAt p l = none ↔ ∀ c ∈ l, c.pos ≠ p := by
  induction l with
  | nil => simp [findCrateAt]
  | cons c rest ih =>
    unfold findCrateAt
    by_cases h : c.pos = p
    · simp [h]
    · simp [h, ih]

theorem get_set_crate (l : List Crate) (k : Nat) (a : Crate) (s : Fin (l.set k a).length) :
    (l.set k a).get s = if k = s.1 then a else l.get ⟨s.1, by simpa using s.2⟩ := by
  rw [List.get_eq_getElem, List.getElem_set]
  split
  · rfl
  · rw [List.get_eq_getElem]

theorem is_placed_iff (c : Crate) (b : Board) :
    c.is_placed b = true ↔ b.map.get c.i c.j = CellKind.Target := by
  unfold Crate.is_placed
  cases h : b.map.get c.i c.j <;> simp

/-! ### Claim C4: win detection -/

/-- C4 (confirmed): `has_won()` is `true` iff every crate's cell is
`Target`; equivalently it is `false` as soon as some crate is off-target. -/
theorem has_won_iff_all_on_target (b : Board) :
    b.has_won = true ↔ ∀ c ∈ b.crates, b.map.get c.i c.j = CellKind.Target := by
  unfold Board.has_won
  rw [List.all_eq_true]
  constructor
  · intro h c hc
    exact (is_placed_iff c b).mp (h c hc)
  · intro h c hc
    exact (is_placed_iff c b).mpr (h c hc)

/-- Witness for C4 at the concrete board `bW4`. -/
theorem has_won_iff_all_on_target_witness :
    bW4.has_won = true ↔ ∀ c ∈ bW4.crates, bW4.map.get c.i c.j = CellKind.Target :=
  has_won_iff_all_on_target bW4

/-! ### Claim C5: `Map::get` totality -/

/-- C5 (confirmed): for every well-formed map (the invariant of the Rust
struct, maintained by its only constructors), `try_get` is `some` exactly
on in-range coordinates, where it returns the cell stored at row-major
index `j * width + i`; `get` unwraps it with a `Void` default, so any
out-of-bounds query yields `Void` and no query can fail. -/
theorem try_get_get_spec (m : Map) (i j : Nat) (h : m.Wf) :
    ((m.try_get i j).isSome = true ↔ i < m.width ∧ j < m.height)
    ∧ (m.try_get i j = none → m.get i j = CellKind.Void)
    ∧ (i < m.width → j < m.height → m.try_get i j = m.squares.get? (j * m.width + i))
    ∧ ((m.width ≤ i ∨ m.height ≤ j) → m.get i j = CellKind.Void) := by
  unfold Map.Wf at h
  unfold Map.get Map.try_get
  by_cases hb : i < m.width ∧ j < m.height
  · have hlt : j * m.width + i < m.squares.length := by
      have h1 : j * m.width + i < (j + 1) * m.width := by
        rw [Nat.succ_mul]
        omega
      have h2 : (j + 1) * m.width ≤ m.height * m.width := Nat.mul_le_mul_right _ hb.2
      have h3 : m.height * m.width = m.width * m.height := Nat.mul_comm _ _
      omega
    rw [if_pos hb]
    refine ⟨by simp [hb], by simp, ?_, ?_⟩
    · intro hi hj
      rw [List.getD_eq_getElem?_getD, List.getElem?_eq_getElem hlt,
        List.get?_eq_get hlt]
      rfl
    · intro hout
      rcases hout with hout | hout
      · exact absurd hb.1 (by omega)
      · exact absurd hb.2 (by omega)
  · rw [if_neg hb]
    refine ⟨by simp [hb], fun _ => rfl, ?_, fun _ => rfl⟩
    intro hi hj
    exact absurd ⟨hi, hj⟩ hb

/-- Witness for C5: an in-range and an out-of-range query on `mW5`. -/
theorem try_get_get_spec_witness :
    (mW5.try_get 0 0).isSome = true ∧ mW5.get 9 9 = CellKind.Void :=
  ⟨(try_get_get_spec mW5 0 0 rfl).1.mpr (by decide),
   (try_get_get_spec mW5 9 9 rfl).2.2.2 (by decide)⟩

/-! ### Claim C6: reset semantics and idempotence -/

/-- C6 (confirmed): `reset` restores the player and crates from the
original snapshot, touches neither the map nor the snapshot itself, and
is idempotent. -/
theorem reset_spec (b : Board) :
    b.reset.player = b.original_player
    ∧ b.reset.crates = b.original_crates
    ∧ b.reset.map = b.map
    ∧ b.reset.original_player = b.original_player
    ∧ b.reset.original_crates = b.original_crates
    ∧ b.reset.reset = b.reset :=
  ⟨rfl, rfl, rfl, rfl, rfl, rfl⟩

/-! ### Claim C7: `Map::new` -/

/-- C7 counterexample: at `width = height = 65536` the product is
`2^32`, which overflows `u32`; the source panics on the overflowing
multiplication (modelled by `none`) instead of returning an
`InvalidDimensions` error — indeed no such error variant exists anywhere
in the source. -/
theorem map_new_overflow_panics : Map.new 65536 65536 = none := by decide

/-- C7 as amended: whenever `width * height` fits in `u32`, `Map::new`
returns a map of the given dimensions whose `width * height` cells are
all `Void`; on overflow it panics (`none`), it does not return a typed
error. -/
theorem map_new_spec (w h : Nat) (hfit : w * h < 2 ^ 32) :
    Map.new w h
      = some { width := w, height := h,
               squares := List.replicate (w * h) CellKind.Void } := by
  unfold Map.new
  rw [if_pos hfit]

/-- Witness for the amended C7 at `2 × 3`. -/
theorem map_new_spec_witness :
    Map.new 2 3 = some { width := 2, height := 3,
                         squares := List.replicate 6 CellKind.Void } :=
  map_new_spec 2 3 (by decide)

/-! ### Movement lemmas -/

theorem move_static (b : Board) (d : Direction) :
    ∃ p c, (b.do_move_player d).1 = { b with player := p, crates := c } := by
  unfold Board.do_move_player
  dsimp only
  cases findCrateIdx (d.to_coords b.player.1 b.player.2) b.crates with
  | some index =>
    dsimp only
    by_cases hp : ((b.map.get (d.to_coords (d.to_coords b.player.1 b.player.2).1
          (d.to_coords b.player.1 b.player.2).2).1
        (d.to_coords (d.to_coords b.player.1 b.player.2).1
          (d.to_coords b.player.1 b.player.2).2).2).is_crossable = true
      ∧ findCrateAt (d.to_coords (d.to_coords b.player.1 b.player.2).1
          (d.to_coords b.player.1 b.player.2).2) b.crates = none)
    · rw [if_pos hp]
      by_cases hu : (b.map.get (d.to_coords b.player.1 b.player.2).1
          (d.to_coords b.player.1 b.player.2).2).is_crossable = true
      · rw [if_pos hu]
        exact ⟨_, _, rfl⟩
      · rw [if_neg hu]
        exact ⟨b.player, _, rfl⟩
    · rw [if_neg hp]
      exact ⟨b.player, b.crates, rfl⟩
  | none =>
    dsimp only
    by_cases hu : (b.map.get (d.to_coords b.player.1 b.player.2).1
        (d.to_coords b.player.1 b.player.2).2).is_crossable = true
    · rw [if_pos hu]
      exact ⟨_, b.crates, rfl⟩
    · rw [if_neg hu]
      exact ⟨b.player, b.crates, rfl⟩

theorem move_reset (b : Board) (d : Direction) :
    (b.do_move_player d).1.reset = b.reset := by
  obtain ⟨p, c, hshape⟩ := move_static b d
  rw [hshape]
  rfl

theorem reset_reset (b : Board) : b.reset.reset = b.reset := rfl

theorem move_preserves (b : Board) (d : Direction) (h : invariants b) :
    invariants (b.do_move_player d).1 := by
  obtain ⟨h1, h2, h3, h4⟩ := h
  unfold Board.do_move_player
  dsimp only
  cases hf : findCrateIdx (d.to_coords b.player.1 b.player.2) b.crates with
  | none =>
    dsimp only
    have hno : ∀ c ∈ b.crates, c.pos ≠ d.to_coords b.player.1 b.player.2 :=
      (findCrateIdx_none_iff _ _).mp hf
    by_cases hu : (b.map.get (d.to_coords b.player.1 b.player.2).1
        (d.to_coords b.player.1 b.player.2).2).is_crossable = true
    · rw [if_pos hu]
      refine ⟨h1, ?_, hu, h4⟩
      intro s
      exact hno _ (List.get_mem _ _ _)
    · rw [if_neg hu]
      exact ⟨h1, h2, h3, h4⟩
  | some index =>
    dsimp only
    obtain ⟨hlt, hpos⟩ := findCrateIdx_some _ _ _ hf
    have hpi : (d.to_coords b.player.1 b.player.2).1 = (b.crates.get ⟨index, hlt⟩).i := by
      rw [← hpos]
      rfl
    have hpj : (d.to_coords b.player.1 b.player.2).2 = (b.crates.get ⟨index, hlt⟩).j := by
      rw [← hpos]
      rfl
    have hu : (b.map.get (d.to_coords b.player.1 b.player.2).1
        (d.to_coords b.player.1 b.player.2).2).is_crossable = true := by
      rw [hpi, hpj]
      exact h4 ⟨index, hlt⟩
    by_cases hp : ((b.map.get (d.to_coords (d.to_coords b.player.1 b.player.2).1
          (d.to_coords b.player.1 b.player.2).2).1
        (d.to_coords (d.to_coords b.player.1 b.player.2).1
          (d.to_coords b.player.1 b.player.2).2).2).is_crossable = true
      ∧ findCrateAt (d.to_coords (d.to_coords b.player.1 b.player.2).1
          (d.to_coords b.player.1 b.player.2).2) b.crates = none)
    · rw [if_pos hp, if_pos hu]
      have hnc : ∀ c ∈ b.crates,
          c.pos ≠ d.to_coords (d.to_coords b.player.1 b.player.2).1
            (d.to_coords b.player.1 b.player.2).2 :=
        (findCrateAt_none_iff _ _).mp hp.2
      refine ⟨?_, ?_, hu, ?_⟩
      · intro s t hst
        rw [get_set_crate, get_set_crate]
        by_cases hs : index = s.1 <;> by_cases ht : index = t.1
        · exact absurd (Fin.ext (ht ▸ hs.symm)) hst
        · rw [if_pos hs, if_neg ht]
          intro he
          exact hnc _ (List.get_mem _ _ _) he.symm
        · rw [if_neg hs, if_pos ht]
          intro he
          exact hnc _ (List.get_mem _ _ _) he
        · rw [if_neg hs, if_neg ht]
          refine h1 _ _ ?_
          intro he
          injection he with hv
          exact hst (Fin.ext hv)
      · intro s
        rw [get_set_crate]
        by_cases hs : index = s.1
        · rw [if_pos hs]
          have hx := hnc _ (List.get_mem b.crates index hlt)
          rw [hpos] at hx
          exact Ne.symm hx
        · rw [if_neg hs]
          have hne : (⟨s.1, by simpa using s.2⟩ : Fin b.crates.length) ≠ ⟨index, hlt⟩ := by
            intro he
            exact hs (congrArg Fin.val he).symm
          have hx := h1 _ _ hne
          rw [hpos] at hx
          exact hx
      · intro s
        rw [get_set_crate]
        by_cases hs : index = s.1
        · rw [if_pos hs]
          exact hp.1
        · rw [if_neg hs]
          exact h4 ⟨s.1, by simpa using s.2⟩
    · rw [if_neg hp]
      exact ⟨h1, h2, h3, h4⟩

/-! ### Claim C1: invariant preservation -/

/-- C1 counterexample: the level `lvl1` parses (the parser does not
validate crate overlap), and two pushes to the right separate the two
overlapping crates, yielding a board that satisfies all three invariants;
one further `reset` restores the overlapping original crates, so the
invariants do not survive every `do_move_player`/`reset` sequence from an
invariant-satisfying board. -/
theorem invariants_not_preserved_cex :
    Board.fromChars lvl1 = some (.ok b1cex)
    ∧ invariants (runOps b1cex [.move .Right, .move .Right])
    ∧ ¬ invariants (runOps (runOps b1cex [.move .Right, .move .Right]) [.reset]) := by
  decide

/-- C1 as amended: if the current state *and* the saved original snapshot
(the state `reset` restores) satisfy the three invariants, then after any
sequence of `do_move_player` and `reset` calls both still do. -/
theorem invariants_preserved (b : Board) (ops : List Op) (h : invariants b)
    (hr : invariants b.reset) :
    invariants (runOps b ops) ∧ invariants (runOps b ops).reset := by
  induction ops generalizing b with
  | nil => exact ⟨h, hr⟩
  | cons op t ih =>
    have hstep : invariants (applyOp b op) := by
      cases op with
      | move d => exact move_preserves b d h
      | reset => exact hr
    have hstepr : invariants (applyOp b op).reset := by
      cases op with
      | move d =>
        show invariants (b.do_move_player d).1.reset
        rw [move_reset]
        exact hr
      | reset =>
        show invariants b.reset.reset
        rw [reset_reset]
        exact hr
    exact ih (applyOp b op) hstep hstepr

/-- Witness for the amended C1 on the concrete board `bW1`. -/
theorem invariants_preserved_witness :
    invariants (runOps bW1 [.move .Down]) ∧ invariants (runOps bW1 [.move .Down]).reset :=
  invariants_preserved bW1 [.move .Down] (by decide) (by decide)

/-! ### Claim C2: the movement algorithm -/

/-- C2 counterexample: on `b2cex` (player `(1,0)`, crate `(0,0)`, both on
floor, invariants hold) moving `Left` gives `new_player = (0,0)` —
occupied by crate `0` — and, by saturation, `new_crate = (0,0)` as well.
The claim's push condition holds: `map.get(new_crate)` is crossable and
no *other* crate occupies `new_crate` (there is no other crate at all),
so the claim demands outcome `Moved(Some 0)`; the code instead finds the
pushed crate itself at `new_crate` and returns `Blocked` with nothing
moved. -/
theorem move_follows_spec_cex :
    invariants b2cex
    ∧ Direction.Left.to_coords b2cex.player.1 b2cex.player.2 = (0, 0)
    ∧ Direction.Left.to_coords 0 0 = (0, 0)
    ∧ findCrateIdx (0, 0) b2cex.crates = some 0
    ∧ (b2cex.map.get 0 0).is_crossable = true
    ∧ (∀ s : Fin b2cex.crates.length, s.1 ≠ 0 → (b2cex.crates.get s).pos ≠ (0, 0))
    ∧ b2cex.do_move_player .Left = (b2cex, none) := by
  decide

/-- C2 as amended: for every board satisfying the invariants the move
follows the claimed algorithm, with the push condition read as "no crate
at all occupies `new_crate`" (`MoveSpec`). -/
theorem move_follows_spec (b : Board) (dir : Direction) (h : invariants b) :
    MoveSpec b dir := by
  obtain ⟨h1, h2, h3, h4⟩ := h
  constructor
  · intro k hk
    have hfind : findCrateIdx (dir.to_coords b.player.1 b.player.2) b.crates = some k.1 := by
      cases hf : findCrateIdx (dir.to_coords b.player.1 b.player.2) b.crates with
      | none =>
        exact absurd hk ((findCrateIdx_none_iff _ _).mp hf _ (List.get_mem _ _ _))
      | some idx =>
        obtain ⟨hlt, hpos⟩ := findCrateIdx_some _ _ _ hf
        have he : (⟨idx, hlt⟩ : Fin b.crates.length) = k := by
          by_contra hne
          exact h1 _ _ hne (hpos.trans hk.symm)
        have hv : idx = k.1 := congrArg Fin.val he
        rw [← hv]
    have hu : (b.map.get (dir.to_coords b.player.1 b.player.2).1
        (dir.to_coords b.player.1 b.player.2).2).is_crossable = true := by
      have hpi : (dir.to_coords b.player.1 b.player.2).1 = (b.crates.get k).i := by
        rw [← hk]
        rfl
      have hpj : (dir.to_coords b.player.1 b.player.2).2 = (b.crates.get k).j := by
        rw [← hk]
        rfl
      rw [hpi, hpj]
      exact h4 k
    constructor
    · intro hp
      have hpn : ((b.map.get (dir.to_coords (dir.to_coords b.player.1 b.player.2).1
            (dir.to_coords b.player.1 b.player.2).2).1
          (dir.to_coords (dir.to_coords b.player.1 b.player.2).1
            (dir.to_coords b.player.1 b.player.2).2).2).is_crossable = true
        ∧ findCrateAt (dir.to_coords (dir.to_coords b.player.1 b.player.2).1
            (dir.to_coords b.player.1 b.player.2).2) b.crates = none) :=
        ⟨hp.1, (findCrateAt_none_iff _ _).mpr hp.2⟩
      unfold Board.do_move_player
      dsimp only
      rw [hfind]
      dsimp only
      rw [if_pos hpn, if_pos hu]
    · intro hp
      have hpn : ¬ ((b.map.get (dir.to_coords (dir.to_coords b.player.1 b.player.2).1
            (dir.to_coords b.player.1 b.player.2).2).1
          (dir.to_coords (dir.to_coords b.player.1 b.player.2).1
            (dir.to_coords b.player.1 b.player.2).2).2).is_crossable = true
        ∧ findCrateAt (dir.to_coords (dir.to_coords b.player.1 b.player.2).1
            (dir.to_coords b.player.1 b.player.2).2) b.crates = none) := by
        intro hc
        exact hp ⟨hc.1, (findCrateAt_none_iff _ _).mp hc.2⟩
      unfold Board.do_move_player
      dsimp only
      rw [hfind]
      dsimp only
      rw [if_neg hpn]
  · intro hno
    have hfind : findCrateIdx (dir.to_coords b.player.1 b.player.2) b.crates = none :=
      (findCrateIdx_none_iff _ _).mpr hno
    constructor
    · intro hcr
      unfold Board.do_move_player
      dsimp only
      rw [hfind]
      dsimp only
      rw [if_pos hcr]
    · intro hncr
      have hcf : ¬ ((b.map.get (dir.to_coords b.player.1 b.player.2).1
          (dir.to_coords b.player.1 b.player.2).2).is_crossable = true) := by
        rw [hncr]
        simp
      unfold Board.do_move_player
      dsimp only
      rw [hfind]
      dsimp only
      rw [if_neg hcf]

/-- Witness for the amended C2 on the concrete board `bW2`. -/
theorem move_follows_spec_witness : MoveSpec bW2 .Right :=
  move_follows_spec bW2 .Right (by decide)

/-! ### Claim C3: `Blocked` leaves the board unchanged -/

/-- C3 counterexample: the level `lvl3` parses to `b3cex`, whose crate
sits on a `Wall` (the parser does not validate this).  Moving `Right`
returns `None` (`Blocked`), yet the crate has been pushed from `(1,0)` to
`(2,0)`: the board changed although the outcome says nothing did. -/
theorem blocked_no_change_cex :
    Board.fromChars lvl3 = some (.ok b3cex)
    ∧ (b3cex.do_move_player .Right).2 = none
    ∧ (b3cex.do_move_player .Right).1 ≠ b3cex := by
  decide

/-- C3 as amended: on every board whose crates all rest on crossable
cells (part of the documented board invariants; true of every board the
game loop can reach from a valid level), a `Blocked` (`None`) outcome
implies the board is completely unchanged. -/
theorem blocked_no_change (b : Board) (d : Direction)
    (hc : ∀ s : Fin b.crates.length,
      (b.map.get (b.crates.get s).i (b.crates.get s).j).is_crossable = true)
    (hres : (b.do_move_player d).2 = none) :
    (b.do_move_player d).1 = b := by
  unfold Board.do_move_player at hres ⊢
  dsimp only at hres ⊢
  cases hf : findCrateIdx (d.to_coords b.player.1 b.player.2) b.crates with
  | none =>
    rw [hf] at hres
    dsimp only at hres ⊢
    by_cases hu : (b.map.get (d.to_coords b.player.1 b.player.2).1
        (d.to_coords b.player.1 b.player.2).2).is_crossable = true
    · rw [if_pos hu] at hres
      exact absurd hres (by simp)
    · rw [if_neg hu]
  | some index =>
    obtain ⟨hlt, hpos⟩ := findCrateIdx_some _ _ _ hf
    rw [hf] at hres
    dsimp only at hres ⊢
    have hu : (b.map.get (d.to_coords b.player.1 b.player.2).1
        (d.to_coords b.player.1 b.player.2).2).is_crossable = true := by
      have hpi : (d.to_coords b.player.1 b.player.2).1 = (b.crates.get ⟨index, hlt⟩).i := by
        rw [← hpos]
        rfl
      have hpj : (d.to_coords b.player.1 b.player.2).2 = (b.crates.get ⟨index, hlt⟩).j := by
        rw [← hpos]
        rfl
      rw [hpi, hpj]
      exact hc ⟨index, hlt⟩
    by_cases hp : ((b.map.get (d.to_coords (d.to_coords b.player.1 b.player.2).1
          (d.to_coords b.player.1 b.player.2).2).1
        (d.to_coords (d.to_coords b.player.1 b.player.2).1
          (d.to_coords b.player.1 b.player.2).2).2).is_crossable = true
      ∧ findCrateAt (d.to_coords (d.to_coords b.player.1 b.player.2).1
          (d.to_coords b.player.1 b.player.2).2) b.crates = none)
    · rw [if_pos hp, if_pos hu] at hres
      exact absurd hres (by simp)
    · rw [if_neg hp]

/-- Witness for the amended C3: a blocked step against a wall on `bW3`. -/
theorem blocked_no_change_witness : (bW3.do_move_player .Right).1 = bW3 :=
  blocked_no_change bW3 .Right (by decide) (by decide)

/-! ### Claim C10: boundary moves -/

/-- C10 (confirmed): on any board satisfying the invariants, moving
`Left` at column `0` (resp. `Up` at row `0`) returns `Moved(None)`
(`Some(None)`) while the whole board — in particular the player's
position — is unchanged: saturation clamps `new_player` to the current
cell, which is crate-free and crossable by the invariants. -/
theorem boundary_move_keeps_player (b : Board) (h : invariants b) :
    (b.player.1 = 0 → b.do_move_player .Left = (b, some none))
    ∧ (b.player.2 = 0 → b.do_move_player .Up = (b, some none)) := by
  obtain ⟨h1, h2, h3, h4⟩ := h
  constructor
  · intro h0
    have hnp : Direction.Left.to_coords b.player.1 b.player.2 = b.player := by
      refine Prod.ext ?_ ?_
      · show b.player.1 - 1 = b.player.1
        omega
      · rfl
    have hfind : findCrateIdx (Direction.Left.to_coords b.player.1 b.player.2) b.crates
        = none := by
      rw [hnp]
      refine (findCrateIdx_none_iff _ _).mpr ?_
      intro c hc
      obtain ⟨n, hn⟩ := List.mem_iff_get.mp hc
      rw [← hn]
      exact h2 n
    unfold Board.do_move_player
    dsimp only
    rw [hfind]
    dsimp only
    rw [hnp, if_pos h3]
  · intro h0
    have hnp : Direction.Up.to_coords b.player.1 b.player.2 = b.player := by
      refine Prod.ext ?_ ?_
      · rfl
      · show b.player.2 - 1 = b.player.2
        omega
    have hfind : findCrateIdx (Direction.Up.to_coords b.player.1 b.player.2) b.crates
        = none := by
      rw [hnp]
      refine (findCrateIdx_none_iff _ _).mpr ?_
      intro c hc
      obtain ⟨n, hn⟩ := List.mem_iff_get.mp hc
      rw [← hn]
      exact h2 n
    unfold Board.do_move_player
    dsimp only
    rw [hfind]
    dsimp only
    rw [hnp, if_pos h3]

/-- Witness for C10 on the concrete board `bW10` at `(0,0)`. -/
theorem boundary_move_keeps_player_witness :
    bW10.do_move_player .Left = (bW10, some none)
    ∧ bW10.do_move_player .Up = (bW10, some none) :=
  ⟨(boundary_move_keeps_player bW10 (by decide)).1 rfl,
   (boundary_move_keeps_player bW10 (by decide)).2 rfl⟩

/-! ### Parsing lemmas -/

theorem maxList_eq_none (l : List Nat) : maxList l = none ↔ l = [] := by
  cases l with
  | nil => simp [maxList]
  | cons a rest =>
    constructor
    · intro h
      exfalso
      unfold maxList at h
      cases hr : maxList rest <;> rw [hr] at h <;> simp at h
    · intro h
      exact (List.cons_ne_nil a rest h).elim

theorem maxList_le (l : List Nat) (w : Nat) (h : maxList l = some w) :
    ∀ x ∈ l, x ≤ w := by
  induction l generalizing w with
  | nil => simp [maxList] at h
  | cons a rest ih =>
    unfold maxList at h
    cases hr : maxList rest with
    | none =>
      rw [hr] at h
      injection h with hv
      have hrest : rest = [] := (maxList_eq_none rest).mp hr
      subst hrest
      intro x hx
      rcases List.mem_singleton.mp hx with rfl
      omega
    | some m =>
      rw [hr] at h
      injection h with hv
      intro x hx
      rcases List.mem_cons.mp hx with rfl | hx2
      · omega
      · have := ih m hr x hx2
        omega

theorem cellOfChar_err (c : Char) (h : isCellChar c = false) :
    cellOfChar c = .error ("Unknown symbol", c) := by
  unfold isCellChar cellOfChar at h
  unfold cellOfChar
  by_cases h1 : c = ' '
  · rw [if_pos h1] at h
    simp at h
  · rw [if_neg h1] at h ⊢
    by_cases h2 : c = '.'
    · rw [if_pos h2] at h
      simp at h
    · rw [if_neg h2] at h ⊢
      by_cases h3 : c = '#'
      · rw [if_pos h3] at h
        simp at h
      · rw [if_neg h3] at h ⊢
        by_cases h4 : c = 'X'
        · rw [if_pos h4] at h
          simp at h
        · rw [if_neg h4]

theorem cellOfChar_ok (c : Char) (h : isCellChar c = true) :
    cellOfChar c = .ok (cellOfCharD c) := by
  unfold isCellChar at h
  unfold cellOfCharD
  cases he : cellOfChar c with
  | ok k => rfl
  | error e =>
    rw [he] at h
    simp at h

theorem parseLine_ok (l : List Char) (h : ∀ c ∈ l, isCellChar c = true) :
    parseLine l = .ok (l.map cellOfCharD) := by
  induction l with
  | nil => rfl
  | cons c cs ih =>
    unfold parseLine
    rw [cellOfChar_ok c (h c (by simp)), ih (fun x hx => h x (by simp [hx]))]
    rfl

theorem parseLine_err (l : List Char) (h : ¬ ∀ c ∈ l, isCellChar c = true) :
    ∃ c, c ∈ l ∧ isCellChar c = false ∧ parseLine l = .error ("Unknown symbol", c) := by
  induction l with
  | nil => exact absurd (by simp) h
  | cons c0 cs ih =>
    by_cases hc : isCellChar c0 = true
    · have htail : ¬ ∀ c ∈ cs, isCellChar c = true := by
        intro hall
        refine h ?_
        intro x hx
        rcases List.mem_cons.mp hx with rfl | hx2
        · exact hc
        · exact hall x hx2
      obtain ⟨cbad, hmem, hbad, herr⟩ := ih htail
      refine ⟨cbad, by simp [hmem], hbad, ?_⟩
      unfold parseLine
      rw [cellOfChar_ok c0 hc, herr]
    · have hcf : isCellChar c0 = false := by
        cases hb : isCellChar c0
        · rfl
        · exact absurd hb hc
      refine ⟨c0, by simp, hcf, ?_⟩
      unfold parseLine
      rw [cellOfChar_err c0 hcf]

theorem buildRows_ok (w : Nat) (ls : List (List Char))
    (h : ∀ l ∈ ls, ∀ c ∈ l, isCellChar c = true) :
    buildRows w ls = .ok (rowsConcat w ls) := by
  induction ls with
  | nil => rfl
  | cons l ls ih =>
    unfold buildRows rowsConcat
    rw [parseLine_ok l (h l (by simp)), ih (fun x hx => h x (by simp [hx]))]

theorem buildRows_err (w : Nat) (ls : List (List Char))
    (h : ∃ l ∈ ls, ∃ c ∈ l, isCellChar c = false) :
    ∃ c, (∃ l ∈ ls, c ∈ l) ∧ isCellChar c = false
      ∧ buildRows w ls = .error ("Unknown symbol", c) := by
  induction ls with
  | nil => simp at h
  | cons l ls ih =>
    by_cases hl : ∀ c ∈ l, isCellChar c = true
    · have htail : ∃ l2 ∈ ls, ∃ c ∈ l2, isCellChar c = false := by
        obtain ⟨l2, hm, c, hcm, hcf⟩ := h
        rcases List.mem_cons.mp hm with rfl | hm2
        · rw [hl c hcm] at hcf
          cases hcf
        · exact ⟨l2, hm2, c, hcm, hcf⟩
      obtain ⟨cbad, ⟨l2, hm2, hcm⟩, hbad, herr⟩ := ih htail
      refine ⟨cbad, ⟨l2, by simp [hm2], hcm⟩, hbad, ?_⟩
      unfold buildRows
      rw [parseLine_ok l hl, herr]
    · obtain ⟨cbad, hcm, hbad, herr⟩ := parseLine_err l hl
      refine ⟨cbad, ⟨l, by simp, hcm⟩, hbad, ?_⟩
      unfold buildRows
      rw [herr]

theorem rowsConcat_length (w : Nat) (ls : List (List Char))
    (h : ∀ l ∈ ls, l.length ≤ w) :
    (rowsConcat w ls).length = ls.length * w := by
  induction ls with
  | nil => simp [rowsConcat]
  | cons l ls ih =>
    unfold rowsConcat
    rw [List.length_append, List.length_append, List.length_map, List.length_replicate,
      ih (fun x hx => h x (by simp [hx])), List.length_cons, Nat.succ_mul]
    have := h l (by simp)
    omega

/-! ### Claim C8: map-block parsing -/

/-- C8 counterexample: the map text `"\n#"` has one non-empty line, but
`get_width_height` counts both lines (`src.lines().count()`), so the
parsed map has height `2` (with an all-`Void` first row), not `1` as the
claim's "number of non-empty lines" demands. -/
theorem map_parse_height_cex :
    Map.tryFromChars ['\n', '#']
      = some (.ok { width := 1, height := 2, squares := [CellKind.Void, CellKind.Wall] })
    ∧ ((rustLines ['\n', '#']).filter (fun l => !l.isEmpty)).length = 1 := by
  decide

/-- C8 as amended: for every map-block text with at least one line (the
source panics on an empty text, which the level parser never feeds it)
and whose dimensions fit in `u32`: if every character is a legal symbol,
parsing yields the rectangular map whose width is the longest line
length, whose height is the **total** number of lines (blank lines
included), and whose cells are the translated characters with shorter
lines right-padded by `Void`; if some character is illegal, parsing
fails with the `Unknown symbol` error carrying an offending character.
The four symbol translations are recorded explicitly. -/
theorem map_parse_spec (cs : List Char) (w : Nat)
    (hw : maxList ((rustLines cs).map List.length) = some w)
    (hsz : w * (rustLines cs).length < 2 ^ 32) :
    ((∀ l ∈ rustLines cs, ∀ c ∈ l, isCellChar c = true) →
       Map.tryFromChars cs
         = some (.ok { width := w, height := (rustLines cs).length,
                       squares := rowsConcat w (rustLines cs) })
       ∧ (rowsConcat w (rustLines cs)).length = (rustLines cs).length * w)
    ∧ ((∃ l ∈ rustLines cs, ∃ c ∈ l, isCellChar c = false) →
       ∃ c, (∃ l ∈ rustLines cs, c ∈ l) ∧ isCellChar c = false
         ∧ Map.tryFromChars cs = some (.error ("Unknown symbol", c)))
    ∧ cellOfChar ' ' = .ok .Void ∧ cellOfChar '.' = .ok .Floor
    ∧ cellOfChar '#' = .ok .Wall ∧ cellOfChar 'X' = .ok .Target := by
  have hline_le : ∀ l ∈ rustLines cs, l.length ≤ w := by
    intro l hl
    exact maxList_le _ _ hw _ (List.mem_map_of_mem _ hl)
  have hgwh : get_width_height cs = some (w, (rustLines cs).length) := by
    unfold get_width_height
    rw [hw]
  have hnew : Map.new w (rustLines cs).length = some
      { width := w, height := (rustLines cs).length,
        squares := List.replicate (w * (rustLines cs).length) CellKind.Void } := by
    unfold Map.new
    rw [if_pos hsz]
  refine ⟨?_, ?_, rfl, rfl, rfl, rfl⟩
  · intro hok
    constructor
    · unfold Map.tryFromChars
      rw [hgwh]
      dsimp only
      rw [hnew]
      dsimp only
      rw [buildRows_ok w _ hok]
    · exact rowsConcat_length w _ hline_le
  · intro hbad
    obtain ⟨c, hcm, hcf, herr⟩ := buildRows_err w _ hbad
    refine ⟨c, hcm, hcf, ?_⟩
    unfold Map.tryFromChars
    rw [hgwh]
    dsimp only
    rw [hnew]
    dsimp only
    rw [herr]

/-- Witness for the amended C8 on the two-character map text `"#."`. -/
theorem map_parse_spec_witness :
    ∃ m, Map.tryFromChars ['#', '.'] = some (.ok m) :=
  ⟨_, (((map_parse_spec ['#', '.'] 2 (by decide) (by decide)).1 (by decide)).1)⟩

/-! ### Claim C9: crates-block parsing -/

theorem parseCratesLines_error_iff (ls : List (List Char)) (l : List Char) :
    parseCratesLines ls = .error l ↔ firstBadLine ls = some l := by
  induction ls with
  | nil => simp [parseCratesLines, firstBadLine]
  | cons l0 t ih =>
    unfold parseCratesLines firstBadLine
    cases hp : parseCoordLine l0 with
    | none =>
      dsimp only
      rw [if_pos rfl]
      constructor
      · intro h
        injection h with hv
        rw [hv]
      · intro h
        injection h with hv
        rw [hv]
    | some p =>
      dsimp only
      rw [if_neg (by simp : ¬ ((some p : Option (Nat × Nat)) = none))]
      cases hr : parseCratesLines t with
      | error e =>
        dsimp only
        rw [← hr]
        exact ih
      | ok cs =>
        dsimp only
        constructor
        · intro hcon
          simp at hcon
        · intro hfb
          have hx := ih.mpr hfb
          rw [hr] at hx
          simp at hx

/-- C9 counterexample: the level `lvl9` has the single crate line
`"1,2,3"`, which is not of the form `"<u32>,<u32>"` (it has a third
comma-field), yet parsing does **not** fail: the source reads only the
first two comma-fields and returns the board with crate `(1,2)`. -/
theorem crates_parse_error_cex :
    nonEmptyBlocks lvl9
      = [['#'], ['0', ',', '0'], ['1', ',', '2', ',', '3']]
    ∧ rustLines ['1', ',', '2', ',', '3'] = [['1', ',', '2', ',', '3']]
    ∧ isCoordForm ['1', ',', '2', ',', '3'] = false
    ∧ Board.fromChars lvl9 = some (.ok b9cex) := by
  decide

/-- C9 as amended: provided the map block and the player block parse
successfully, `Board::from_str` fails with `CantParseCrateCoordinates l`
exactly when `l` is the first line of the crates block whose first two
comma-separated fields do not both parse as `u32` (fields after the
second are ignored, so a line like `"1,2,3"` is accepted); and if the map
and player blocks parse but no third non-empty block exists, it fails
with `MissingCratesCoordinates`.  On any failure the result carries no
board. -/
theorem crates_parse_error_spec (src : List Char) :
    (∀ l, Board.fromChars src = some (.error (.CantParseCrateCoordinates l)) ↔
       ∃ mb mp pb pc cb rest,
         nonEmptyBlocks src = mb :: pb :: cb :: rest
         ∧ Map.tryFromChars mb = some (.ok mp)
         ∧ parseCoordLine pb = some pc
         ∧ firstBadLine (rustLines cb) = some l)
    ∧ ((∃ mb mp pb pc,
         nonEmptyBlocks src = [mb, pb]
         ∧ Map.tryFromChars mb = some (.ok mp)
         ∧ parseCoordLine pb = some pc) →
       Board.fromChars src = some (.error .MissingCratesCoordinates)) := by
  unfold Board.fromChars
  cases hb : nonEmptyBlocks src with
  | nil =>
    dsimp only
    constructor
    · intro l
      constructor
      · intro hcon
        simp at hcon
      · rintro ⟨mb, mp, pb, pc, cb, rest, hbb, -⟩
        cases hbb
    · rintro ⟨mb, mp, pb, pc, hbb, -⟩
      cases hbb
  | cons mb rest1 =>
    dsimp only
    cases hm : Map.tryFromChars mb with
    | none =>
      dsimp only
      constructor
      · intro l
        constructor
        · intro hcon
          simp at hcon
        · rintro ⟨mb', mp, pb, pc, cb, rest, hbb, hm', -⟩
          injection hbb with e1 hbb2
          rw [← e1, hm] at hm'
          simp at hm'
      · rintro ⟨mb', mp, pb, pc, hbb, hm', -⟩
        injection hbb with e1 hbb2
        rw [← e1, hm] at hm'
        simp at hm'
    | some me =>
      cases me with
      | error e =>
        dsimp only
        constructor
        · intro l
          constructor
          · intro hcon
            simp at hcon
          · rintro ⟨mb', mp, pb, pc, cb, rest, hbb, hm', -⟩
            injection hbb with e1 hbb2
            rw [← e1, hm] at hm'
            simp at hm'
        · rintro ⟨mb', mp, pb, pc, hbb, hm', -⟩
          injection hbb with e1 hbb2
          rw [← e1, hm] at hm'
          simp at hm'
      | ok mp0 =>
        dsimp only
        cases rest1 with
        | nil =>
          dsimp only
          constructor
          · intro l
            constructor
            · intro hcon
              simp at hcon
            · rintro ⟨mb', mp, pb, pc, cb, rest, hbb, -⟩
              injection hbb with e1 hbb2
              cases hbb2
          · rintro ⟨mb', mp, pb, pc, hbb, -⟩
            injection hbb with e1 hbb2
            cases hbb2
        | cons pb rest2 =>
          dsimp only
          cases hpl : parseCoordLine pb with
          | none =>
            dsimp only
            constructor
            · intro l
              constructor
              · intro hcon
                simp at hcon
              · rintro ⟨mb', mp, pb', pc, cb, rest, hbb, hm', hpl', -⟩
                injection hbb with e1 hbb2
                injection hbb2 with e2 hbb3
                rw [← e2, hpl] at hpl'
                simp at hpl'
            · rintro ⟨mb', mp, pb', pc, hbb, hm', hpl'⟩
              injection hbb with e1 hbb2
              injection hbb2 with e2 hbb3
              rw [← e2, hpl] at hpl'
              simp at hpl'
          | some pc0 =>
            dsimp only
            cases rest2 with
            | nil =>
              dsimp only
              constructor
              · intro l
                constructor
                · intro hcon
                  simp at hcon
                · rintro ⟨mb', mp, pb', pc, cb, rest, hbb, -⟩
                  injection hbb with e1 hbb2
                  injection hbb2 with e2 hbb3
                  cases hbb3
              · intro _
                rfl
            | cons cb rest3 =>
              dsimp only
              cases hcr : parseCratesLines (rustLines cb) with
              | error lbad =>
                dsimp only
                constructor
                · intro l
                  constructor
                  · intro heq
                    simp only [Option.some.injEq, Except.error.injEq,
                      LevelParseError.CantParseCrateCoordinates.injEq] at heq
                    refine ⟨mb, mp0, pb, pc0, cb, rest3, rfl, hm, hpl, ?_⟩
                    rw [← heq]
                    exact (parseCratesLines_error_iff _ _).mp hcr
                  · rintro ⟨mb', mp, pb', pc, cb', rest', hbb, hm', hpl', hfb⟩
                    injection hbb with e1 hbb2
                    injection hbb2 with e2 hbb3
                    injection hbb3 with e3 e4
                    rw [← e3] at hfb
                    have hx := (parseCratesLines_error_iff (rustLines cb) l).mpr hfb
                    rw [hcr] at hx
                    injection hx with he
                    rw [he]
                · rintro ⟨mb', mp, pb', pc, hbb, -⟩
                  injection hbb with e1 hbb2
                  injection hbb2 with e2 hbb3
                  cases hbb3
              | ok crates0 =>
                dsimp only
                constructor
                · intro l
                  constructor
                  · intro hcon
                    simp at hcon
                  · rintro ⟨mb', mp, pb', pc, cb', rest', hbb, hm', hpl', hfb⟩
                    injection hbb with e1 hbb2
                    injection hbb2 with e2 hbb3
                    injection hbb3 with e3 e4
                    rw [← e3] at hfb
                    have hx := (parseCratesLines_error_iff (rustLines cb) l).mpr hfb
                    rw [hcr] at hx
                    simp at hx
                · rintro ⟨mb', mp, pb', pc, hbb, -⟩
                  injection hbb with e1 hbb2
                  injection hbb2 with e2 hbb3
                  cases hbb3

/-- Witness for the amended C9: the level `lvl9w`, whose single crate
line is `"3,x"`, fails with `CantParseCrateCoordinates("3,x")` — the
spec's Scenario D. -/
theorem crates_parse_error_spec_witness :
    Board.fromChars lvl9w
      = some (.error (.CantParseCrateCoordinates ['3', ',', 'x'])) :=
  ((crates_parse_error_spec lvl9w).1 ['3', ',', 'x']).mpr
    ⟨['#'], ⟨1, 1, [CellKind.Wall]⟩, ['0', ',', '0'], (0, 0), ['3', ',', 'x'], [],
      by decide, by decide, by decide, by decide⟩
